import Mathlib

/-!
Verification of the request-normalization layer of the Frontier debug RPC
interface (`client/rpc-core/src/debug.rs`).

The Rust source defines serde-deserializable request types:
  * `RequestBlockId`, an untagged enum trying, in order, `Number` (a `u32`
    deserialized from a string through `deserialize_u32_0x`), `Hash` (an
    `H256`, deserialized by `impl-serde` 0.4 from an optionally
    `0x`-prefixed 64-hex-digit string), and `Tag` (a derived unit enum
    matching the exact strings `earliest`, `latest`, `pending`, either as a
    plain string or in serde's externally tagged single-entry map form);
  * `deserialize_u32_0x`, which deserializes a string and parses it with
    `u32::from_str_radix` in base 16 after stripping a `0x` prefix, or in
    base 10 otherwise;
  * `TraceParams`, a struct of six optional fields;
  * `TraceCallParams`, a struct whose `to` field is mandatory and whose other
    ten fields are optional;
  * the `DebugApi` trait (`debug_getBadBlocks` and friends).

JSON values are embedded as an inductive type, strings as `String`, byte
strings as `List Nat`, and every deserializer as a total function into
`Except DecodeError`.  Fallible numeric parsing follows Rust's
`u32::from_str_radix`: an optional leading `'+'` sign, at least one digit of
the radix (`char::to_digit` semantics), and failure on any value that does
not fit in 32 bits (Rust uses step-wise checked `u32` arithmetic; since
partial Horner values of a digit string are monotone, that is equivalent to
the final-value bound used here).
-/

namespace FrontierDebug

/-- Decode-level errors of the embedded deserializers.  The Rust code carries
error messages (for instance `serde`'s `missing field` or the custom
`parsing error: ... from '...'` built in `deserialize_u32_0x`); only the
constructor identity matters here. -/
inductive DecodeError where
  /-- A deserializer expected a JSON string and found another JSON shape. -/
  | invalidType
  /-- `deserialize_u32_0x`'s custom error wrapping `ParseIntError`. -/
  | invalidNumber
  /-- A hex byte string is missing its mandatory `0x` prefix. -/
  | prefixMissing
  /-- `impl-serde`: a fixed-size hex string has the wrong length. -/
  | invalidLength
  /-- `impl-serde`: a non-hex character inside a hex string. -/
  | invalidHexCharacter
  /-- serde derive: a string matching no variant of a unit enum. -/
  | unknownVariant
  /-- serde: an enum written as a map must be a map with a single key. -/
  | invalidValue
  /-- serde derive: a mandatory struct field is absent. -/
  | missingField (name : String)
  /-- serde untagged: data matched no variant of the untagged enum. -/
  | noVariantMatched
  deriving DecidableEq

/-- JSON values, the wire form every deserializer consumes. -/
inductive Json where
  | str (s : String)
  | num (n : Int)
  | bool (b : Bool)
  | null
  | arr (elems : List Json)
  | obj (fields : List (String × Json))

/-- `char::to_digit(radix)`: map `0-9`, `a-z`, `A-Z` to their digit value and
keep it only when it is below the radix. -/
def digitValue? (radix : Nat) (c : Char) : Option Nat :=
  let d? : Option Nat :=
    if '0' ≤ c ∧ c ≤ '9' then some (c.toNat - ('0').toNat)
    else if 'a' ≤ c ∧ c ≤ 'z' then some (c.toNat - ('a').toNat + 10)
    else if 'A' ≤ c ∧ c ≤ 'Z' then some (c.toNat - ('A').toNat + 10)
    else none
  match d? with
  | some d => if d < radix then some d else none
  | none => none

/-- The digit loop of `from_str_radix`: Horner evaluation, failing on the
first character that is not a digit of the radix. -/
def parseDigitsAcc (radix acc : Nat) : List Char → Option Nat
  | [] => some acc
  | c :: cs =>
    match digitValue? radix c with
    | some d => parseDigitsAcc radix (acc * radix + d) cs
    | none => none

/-- Horner value of a digit string (non-digits count as 0; used only beside a
proof that every character is a digit). -/
def natOfDigits (radix : Nat) (cs : List Char) : Nat :=
  cs.foldl (fun a c => a * radix + (digitValue? radix c).getD 0) 0

/-- Strip the optional leading `'+'` sign accepted by `from_str_radix` for
unsigned integer types. -/
def dropPlus (cs : List Char) : List Char :=
  match cs with
  | c :: rest => if c = '+' then rest else cs
  | [] => []

/-- `u32::from_str_radix` without the width bound: empty input fails, an
optional `'+'` sign is stripped, and at least one digit must follow. -/
def fromStrRadixNat (radix : Nat) (cs : List Char) : Option Nat :=
  if cs = [] then none
  else
    let digits := dropPlus cs
    if digits = [] then none
    else parseDigitsAcc radix 0 digits

/-- `u32::from_str_radix`: overflow of the 32-bit range is a parse error
(`PosOverflow`), never a truncation. -/
def u32FromStrRadix (radix : Nat) (cs : List Char) : Option Nat :=
  (fromStrRadixNat radix cs).bind (fun v => if v < 2 ^ 32 then some v else none)

/-- The string-level body of `deserialize_u32_0x`: strip a literal `0x`
prefix and parse base 16, otherwise parse base 10. -/
def parseU32Chars (cs : List Char) : Option Nat :=
  match cs with
  | '0' :: 'x' :: rest => u32FromStrRadix 16 rest
  | _ => u32FromStrRadix 10 cs

/-- `deserialize_u32_0x`: deserialize a `String` (failing on any other JSON
shape), then parse it as above. -/
def deserialize_u32_0x (j : Json) : Except DecodeError Nat :=
  match j with
  | Json.str s =>
    match parseU32Chars s.data with
    | some v => Except.ok v
    | none => Except.error DecodeError.invalidNumber
  | _ => Except.error DecodeError.invalidType

/-- Hex-decode an even run of hex characters into bytes, as `impl-serde`'s
`from_hex` does. -/
def decodeHexBytes : List Char → Option (List Nat)
  | [] => some []
  | c1 :: c2 :: rest =>
    match digitValue? 16 c1, digitValue? 16 c2, decodeHexBytes rest with
    | some hi, some lo, some bs => some ((hi * 16 + lo) :: bs)
    | _, _, _ => none
  | [_] => none

/-- Strip an optional literal `0x` prefix
(`v.strip_prefix("0x").map_or(v, ...)`). -/
def strip0x (cs : List Char) : List Char :=
  match cs with
  | '0' :: 'x' :: rest => rest
  | _ => cs

/-- `impl-serde` 0.4 deserialization of a fixed-size hash (`H256`, `H160`),
per its `deserialize_check_len` visitor ("a (both 0x-prefixed or not) hex
string or byte array containing N bytes"): a JSON string, an *optional*
`0x` prefix, exactly `2 * byteLen` hex characters after stripping, decoded
to bytes.  (The visitor's byte-array forms are unreachable from JSON input:
serde's content deserializer hands only strings to `deserialize_str`.) -/
def deserializeFixedHash (byteLen : Nat) (j : Json) : Except DecodeError (List Nat) :=
  match j with
  | Json.str s =>
    let rest := strip0x s.data
    if rest.length = 2 * byteLen then
      match decodeHexBytes rest with
      | some bytes => Except.ok bytes
      | none => Except.error DecodeError.invalidHexCharacter
    else Except.error DecodeError.invalidLength
  | _ => Except.error DecodeError.invalidType

/-- `H256` deserialization (32 bytes). -/
def deserializeH256 (j : Json) : Except DecodeError (List Nat) :=
  deserializeFixedHash 32 j

/-- `H160` deserialization (20 bytes). -/
def deserializeH160 (j : Json) : Except DecodeError (List Nat) :=
  deserializeFixedHash 20 j

/-- `RequestBlockTag` from the source: `Earliest`, `Latest`, `Pending`. -/
inductive RequestBlockTag where
  | Earliest
  | Latest
  | Pending
  deriving DecidableEq

def sEarliest : String := "earliest"
def sLatest : String := "latest"
def sPending : String := "pending"

/-- Variant identifier matching for `RequestBlockTag` with
`rename_all = "camelCase"`: the name must equal one of the renamed variant
names exactly. -/
def tagOfVariantName (s : String) : Except DecodeError RequestBlockTag :=
  if s = sEarliest then Except.ok RequestBlockTag.Earliest
  else if s = sLatest then Except.ok RequestBlockTag.Latest
  else if s = sPending then Except.ok RequestBlockTag.Pending
  else Except.error DecodeError.unknownVariant

/-- serde derive for `RequestBlockTag`: the derived enum deserializer accepts
a unit variant either as its plain renamed name string or in the externally
tagged single-entry map form `{name: payload}` (any other map shape is an
invalid-value error); for a unit variant the map payload must deserialize as
unit, which from JSON means `null`. -/
def deserializeRequestBlockTag (j : Json) : Except DecodeError RequestBlockTag :=
  match j with
  | Json.str s => tagOfVariantName s
  | Json.obj fields =>
    match fields with
    | [(name, payload)] =>
      match tagOfVariantName name with
      | Except.ok t =>
        match payload with
        | Json.null => Except.ok t
        | _ => Except.error DecodeError.invalidType
      | Except.error e => Except.error e
    | _ => Except.error DecodeError.invalidValue
  | _ => Except.error DecodeError.invalidType

/-- `RequestBlockId` from the source. -/
inductive RequestBlockId where
  | Number (n : Nat)
  | Hash (h : List Nat)
  | Tag (t : RequestBlockTag)
  deriving DecidableEq

/-- serde `untagged` deserialization of `RequestBlockId`: try the variants in
declaration order (`Number`, then `Hash`, then `Tag`) on the buffered input
and keep the first success; if every variant fails, report that the data
matched no variant. -/
def deserializeRequestBlockId (j : Json) : Except DecodeError RequestBlockId :=
  match deserialize_u32_0x j with
  | Except.ok n => Except.ok (RequestBlockId.Number n)
  | Except.error _ =>
    match deserializeH256 j with
    | Except.ok h => Except.ok (RequestBlockId.Hash h)
    | Except.error _ =>
      match deserializeRequestBlockTag j with
      | Except.ok t => Except.ok (RequestBlockId.Tag t)
      | Except.error _ => Except.error DecodeError.noVariantMatched

/-- Modelled from the spec: the structured tracer configuration
(`single::TraceCallConfig` of the `client-evm-tracing` crate, whose sources
are not part of the embedded files).  Its semantics are owned by the external
tracing engine; this layer treats it as an uninterpreted JSON payload. -/
structure TraceCallConfig where
  raw : Json

/-- `TraceParams` from the source: six optional fields. -/
structure TraceParams where
  disable_storage : Option Bool
  disable_memory : Option Bool
  disable_stack : Option Bool
  tracer : Option String
  tracer_config : Option TraceCallConfig
  timeout : Option String

/-- Trace options after normalization: the boolean flags are definite, the
other fields keep their optional shape. -/
structure NormalizedTraceParams where
  disable_storage : Bool
  disable_memory : Bool
  disable_stack : Bool
  tracer : Option String
  tracer_config : Option TraceCallConfig
  timeout : Option String

/-- Modelled from the spec: the trace-options normalizer
(`normalize(TraceOptions?) -> TraceOptions`).  The implementation lives in
the RPC server crate, outside the embedded sources; per the spec it fills
each absent boolean flag with `false` and passes `tracer`, `tracerConfig`
and `timeout` through untouched. -/
def normalizeTraceParams : Option TraceParams → NormalizedTraceParams
  | none => ⟨false, false, false, none, none, none⟩
  | some p =>
    ⟨p.disable_storage.getD false, p.disable_memory.getD false,
      p.disable_stack.getD false, p.tracer, p.tracer_config, p.timeout⟩

/-- `impl-serde` deserialization of a `U256`: a JSON string with a mandatory
`0x` prefix followed by 1 to 64 hex characters. -/
def deserializeU256 (j : Json) : Except DecodeError Nat :=
  match j with
  | Json.str s =>
    match s.data with
    | '0' :: 'x' :: rest =>
      if rest = [] then Except.error DecodeError.invalidLength
      else if 64 < rest.length then Except.error DecodeError.invalidLength
      else
        match parseDigitsAcc 16 0 rest with
        | some v => Except.ok v
        | none => Except.error DecodeError.invalidHexCharacter
    | _ => Except.error DecodeError.prefixMissing
  | _ => Except.error DecodeError.invalidType

/-- Modelled from the spec: deserialization of the `Bytes` wire type
(`crate::types::Bytes`, outside the embedded sources): a `0x`-prefixed hex
byte string. -/
def deserializeBytes (j : Json) : Except DecodeError (List Nat) :=
  match j with
  | Json.str s =>
    match s.data with
    | '0' :: 'x' :: rest =>
      match decodeHexBytes rest with
      | some bs => Except.ok bs
      | none => Except.error DecodeError.invalidHexCharacter
    | _ => Except.error DecodeError.prefixMissing
  | _ => Except.error DecodeError.invalidType

/-- `ethereum::AccessListItem`: an address plus its storage keys. -/
structure AccessListItem where
  address : List Nat
  storage_keys : List (List Nat)
  deriving DecidableEq

/-- Look a field up in a JSON object (objects reaching the struct
deserializers are assumed free of duplicate keys — `serde_json` rejects
duplicates upstream). -/
def lookupField (fields : List (String × Json)) (name : String) : Option Json :=
  (fields.find? (fun p => p.1 == name)).map (fun p => p.2)

/-- Deserialize an optional struct field: an absent field is `none`, never a
default value; a present field must parse. -/
def optionalField (fields : List (String × Json)) (name : String)
    (de : Json → Except DecodeError α) : Except DecodeError (Option α) :=
  match lookupField fields name with
  | none => Except.ok none
  | some j => (de j).map some

/-- Deserialize a JSON array elementwise (serde `Vec`). -/
def deserializeVec (de : Json → Except DecodeError α) (j : Json) :
    Except DecodeError (List α) :=
  match j with
  | Json.arr elems => elems.mapM de
  | _ => Except.error DecodeError.invalidType

def nAddress : String := "address"
def nStorageKeys : String := "storageKeys"

/-- serde derive for `ethereum::AccessListItem` (camelCase wire names,
both fields mandatory). -/
def deserializeAccessListItem (j : Json) : Except DecodeError AccessListItem :=
  match j with
  | Json.obj fields => do
    let a ←
      match lookupField fields nAddress with
      | some jv => deserializeH160 jv
      | none => Except.error (DecodeError.missingField nAddress)
    let ks ←
      match lookupField fields nStorageKeys with
      | some jv => deserializeVec deserializeH256 jv
      | none => Except.error (DecodeError.missingField nStorageKeys)
    Except.ok ⟨a, ks⟩
  | _ => Except.error DecodeError.invalidType

/-- `TraceCallParams` from the source: `to` is the only non-optional field. -/
structure TraceCallParams where
  from_ : Option (List Nat)
  «to» : List Nat
  gas_price : Option Nat
  max_fee_per_gas : Option Nat
  max_priority_fee_per_gas : Option Nat
  gas : Option Nat
  value : Option Nat
  data : Option (List Nat)
  nonce : Option Nat
  access_list : Option (List AccessListItem)
  transaction_type : Option Nat
  deriving DecidableEq

def nFrom : String := "from"
def nTo : String := "to"
def nGasPrice : String := "gasPrice"
def nMaxFeePerGas : String := "maxFeePerGas"
def nMaxPriorityFeePerGas : String := "maxPriorityFeePerGas"
def nGas : String := "gas"
def nValue : String := "value"
def nData : String := "data"
def nNonce : String := "nonce"
def nAccessList : String := "accessList"
def nType : String := "type"

/-- serde derive for `TraceCallParams` (camelCase wire names, `type` renamed
for `transaction_type`): unknown keys are ignored, every present known field
must parse, absent optional fields become `None`, and a missing `to` is a
missing-field error raised only after the present fields have been consumed
(the real decoder walks entries in wire order; here the per-field results
are read off by lookup, which coincides under the no-duplicate assumption). -/
def deserializeTraceCallParams (j : Json) : Except DecodeError TraceCallParams :=
  match j with
  | Json.obj fields =>
    Except.bind (optionalField fields nFrom deserializeH160) fun from_ =>
    Except.bind (optionalField fields nTo deserializeH160) fun toV =>
    Except.bind (optionalField fields nGasPrice deserializeU256) fun gas_price =>
    Except.bind (optionalField fields nMaxFeePerGas deserializeU256) fun max_fee_per_gas =>
    Except.bind (optionalField fields nMaxPriorityFeePerGas deserializeU256)
      fun max_priority_fee_per_gas =>
    Except.bind (optionalField fields nGas deserializeU256) fun gas =>
    Except.bind (optionalField fields nValue deserializeU256) fun value =>
    Except.bind (optionalField fields nData deserializeBytes) fun data =>
    Except.bind (optionalField fields nNonce deserializeU256) fun nonce =>
    Except.bind (optionalField fields nAccessList (deserializeVec deserializeAccessListItem))
      fun access_list =>
    Except.bind (optionalField fields nType deserializeU256) fun transaction_type =>
    match toV with
    | some t =>
      Except.ok ⟨from_, t, gas_price, max_fee_per_gas, max_priority_fee_per_gas,
        gas, value, data, nonce, access_list, transaction_type⟩
    | none => Except.error (DecodeError.missingField nTo)
  | _ => Except.error DecodeError.invalidType

/-- Whether a known present field of `TraceCallParams` parses with the
deserializer of its declared type (unknown names are ignored by the struct
deserializer, so they count as fine). -/
def fieldParses (name : String) (j : Json) : Bool :=
  if name == nFrom then (deserializeH160 j).isOk
  else if name == nGasPrice then (deserializeU256 j).isOk
  else if name == nMaxFeePerGas then (deserializeU256 j).isOk
  else if name == nMaxPriorityFeePerGas then (deserializeU256 j).isOk
  else if name == nGas then (deserializeU256 j).isOk
  else if name == nValue then (deserializeU256 j).isOk
  else if name == nData then (deserializeBytes j).isOk
  else if name == nNonce then (deserializeU256 j).isOk
  else if name == nAccessList then ((deserializeVec deserializeAccessListItem) j).isOk
  else if name == nType then (deserializeU256 j).isOk
  else true

/-- Modelled from the spec: the block reference argument type of the service
operations (`crate::types::BlockNumberOrHash` is outside the embedded
sources); a height, a hash or a symbolic tag. -/
inductive BlockNumberOrHash where
  | Number (height : Nat)
  | Hash (digest : List Nat)
  | Tag (t : RequestBlockTag)

/-- RPC-level errors surfaced by the service operations. -/
inductive RpcError where
  | invalidParams
  | serverError

/-- Modelled from the spec: `debug_getBadBlocks` always returns an empty
sequence (a documented stub).  The trait in the source fixes only the
signature `RpcResult<Vec<()>>`; the implementation lives outside the
embedded sources. -/
def bad_blocks (_number : BlockNumberOrHash) : Except RpcError (List Unit) :=
  Except.ok []

/-- Big-endian digit rendering of a natural number, no leading zeros, `0`
rendered as `"0"`.  With radix 16 this models the `{:x}` (lowercase hex)
rendering of a `u32`; with radix 10 the decimal rendering.  These renderings
are the spec's `hex(n)` and `decimal(n)` encoders (the source file only
decodes).  The `radix ≤ 1` guard merely forces termination; it is never
taken for the radixes in use. -/
def toDigitsBE (radix : Nat) (n : Nat) : List Char :=
  if n < radix ∨ radix ≤ 1 then [Nat.digitChar n]
  else toDigitsBE radix (n / radix) ++ [Nat.digitChar (n % radix)]
termination_by n
decreasing_by
  simp_wf
  exact Nat.div_lt_self (by omega) (by omega)

/-- Definition following the spec's words (§4.1), for comparison with the
implementation: the 32-bit parser accepts exactly a `0x`-prefixed
hexadecimal numeral or a plain base-10 numeral whose value fits in 32
bits. -/
def specAcceptsU32 (s : String) : Bool :=
  match s.data with
  | '0' :: 'x' :: rest =>
    !rest.isEmpty && rest.all (fun c => (digitValue? 16 c).isSome)
      && decide (natOfDigits 16 rest < 2 ^ 32)
  | cs =>
    !cs.isEmpty && cs.all (fun c => (digitValue? 10 c).isSome)
      && decide (natOfDigits 10 cs < 2 ^ 32)

/-- A digit string as accepted by `from_str_radix`: an optional leading
`'+'` sign followed by a nonempty run of digits of the radix. -/
def SignedNumeral (radix : Nat) (cs : List Char) : Prop :=
  dropPlus cs ≠ [] ∧ ∀ c ∈ dropPlus cs, (digitValue? radix c).isSome = true

/-! ### Parsing lemmas -/

theorem parseDigitsAcc_eq_some (radix : Nat) (cs : List Char) :
    ∀ (acc v : Nat), parseDigitsAcc radix acc cs = some v ↔
      ((∀ c ∈ cs, (digitValue? radix c).isSome = true) ∧
        v = cs.foldl (fun a c => a * radix + (digitValue? radix c).getD 0) acc) := by
  induction cs with
  | nil =>
    intro acc v
    simp only [parseDigitsAcc, List.foldl_nil, List.not_mem_nil, false_implies,
      implies_true, true_and, Option.some.injEq]
    exact eq_comm
  | cons c cs ih =>
    intro acc v
    cases h : digitValue? radix c with
    | none =>
      simp [parseDigitsAcc, h]
    | some d =>
      simp [parseDigitsAcc, h, ih, and_assoc]

theorem parseDigitsAcc_append (radix acc : Nat) (xs ys : List Char) :
    parseDigitsAcc radix acc (xs ++ ys) =
      (parseDigitsAcc radix acc xs).bind (fun v => parseDigitsAcc radix v ys) := by
  induction xs generalizing acc with
  | nil => simp [parseDigitsAcc]
  | cons c xs ih =>
    cases h : digitValue? radix c <;> simp [parseDigitsAcc, h, ih]

theorem dropPlus_nil : dropPlus [] = [] := rfl

theorem dropPlus_cons_ne (c : Char) (rest : List Char) (h : c ≠ '+') :
    dropPlus (c :: rest) = c :: rest := by
  simp [dropPlus, h]

theorem dropPlus_ne_nil_of (cs : List Char) (h : dropPlus cs ≠ []) : cs ≠ [] := by
  intro hc
  subst hc
  exact h dropPlus_nil

theorem fromStrRadixNat_eq_some (radix : Nat) (cs : List Char) (v : Nat) :
    fromStrRadixNat radix cs = some v ↔
      (dropPlus cs ≠ [] ∧ (∀ c ∈ dropPlus cs, (digitValue? radix c).isSome = true) ∧
        v = natOfDigits radix (dropPlus cs)) := by
  unfold fromStrRadixNat
  by_cases h0 : cs = []
  · subst h0
    simp [dropPlus_nil]
  · simp only [h0, if_false]
    by_cases h1 : dropPlus cs = []
    · simp [h1]
    · simp only [h1, if_false, ne_eq, not_false_eq_true, true_and]
      rw [parseDigitsAcc_eq_some]
      rfl

theorem u32FromStrRadix_eq_some (radix : Nat) (cs : List Char) (v : Nat) :
    u32FromStrRadix radix cs = some v ↔
      (dropPlus cs ≠ [] ∧ (∀ c ∈ dropPlus cs, (digitValue? radix c).isSome = true) ∧
        v = natOfDigits radix (dropPlus cs) ∧ v < 2 ^ 32) := by
  unfold u32FromStrRadix
  cases h : fromStrRadixNat radix cs with
  | none =>
    rw [Option.none_bind]
    constructor
    · intro hab
      exact absurd hab (by simp)
    · rintro ⟨h1, h2, h3, _⟩
      have := (fromStrRadixNat_eq_some radix cs v).mpr ⟨h1, h2, h3⟩
      rw [h] at this
      exact absurd this (by simp)
  | some w =>
    rw [Option.some_bind]
    by_cases hw : w < 2 ^ 32
    · rw [if_pos hw]
      constructor
      · intro hsome
        obtain rfl : w = v := Option.some.inj hsome
        obtain ⟨h1, h2, h3⟩ := (fromStrRadixNat_eq_some radix cs w).mp h
        exact ⟨h1, h2, h3, hw⟩
      · rintro ⟨h1, h2, h3, _⟩
        have := (fromStrRadixNat_eq_some radix cs v).mpr ⟨h1, h2, h3⟩
        rw [h] at this
        exact this
    · rw [if_neg hw]
      constructor
      · intro hab
        exact absurd hab (by simp)
      · rintro ⟨h1, h2, h3, h4⟩
        have := (fromStrRadixNat_eq_some radix cs v).mpr ⟨h1, h2, h3⟩
        rw [h] at this
        obtain rfl : w = v := Option.some.inj this
        exact absurd h4 hw

/-- Full characterization of the string-level parser of `deserialize_u32_0x`:
it succeeds exactly on an optional-`'+'`-signed hexadecimal numeral after a
literal `0x` prefix, or an optional-`'+'`-signed decimal numeral otherwise,
in both cases returning the exact denoted value, which must fit in 32
bits. -/
theorem parseU32Chars_characterization (cs : List Char) (v : Nat) :
    parseU32Chars cs = some v ↔
      (((∃ rest, cs = '0' :: 'x' :: rest ∧ SignedNumeral 16 rest ∧
            v = natOfDigits 16 (dropPlus rest)) ∨
        (SignedNumeral 10 cs ∧ v = natOfDigits 10 (dropPlus cs))) ∧ v < 2 ^ 32) := by
  unfold parseU32Chars
  split
  · next rest =>
    rw [u32FromStrRadix_eq_some]
    unfold SignedNumeral
    constructor
    · rintro ⟨h1, h2, h3, h4⟩
      exact ⟨Or.inl ⟨rest, rfl, ⟨h1, h2⟩, h3⟩, h4⟩
    · rintro ⟨hl | hr, h4⟩
      · obtain ⟨rest', heq, ⟨h1, h2⟩, h3⟩ := hl
        obtain rfl : rest = rest' := by
          injection heq with _ t
          injection t
        exact ⟨h1, h2, h3, h4⟩
      · exfalso
        obtain ⟨⟨_, hall⟩, _⟩ := hr
        have hx : 'x' ∈ dropPlus ('0' :: 'x' :: rest) := by
          rw [dropPlus_cons_ne '0' _ (by decide)]
          simp
        have := hall 'x' hx
        simp [digitValue?] at this
  · next hnomatch =>
    rw [u32FromStrRadix_eq_some]
    unfold SignedNumeral
    constructor
    · rintro ⟨h1, h2, h3, h4⟩
      exact ⟨Or.inr ⟨⟨h1, h2⟩, h3⟩, h4⟩
    · rintro ⟨hl | hr, h4⟩
      · obtain ⟨rest', heq, _, _⟩ := hl
        exact absurd heq (by intro h; exact hnomatch rest' h)
      · obtain ⟨⟨h1, h2⟩, h3⟩ := hr
        exact ⟨h1, h2, h3, h4⟩

/-- If the `u32` shape succeeds, the untagged decoder returns `Number`. -/
theorem resolve_of_parse_some (s : String) (v : Nat)
    (h : parseU32Chars s.data = some v) :
    deserializeRequestBlockId (Json.str s) = Except.ok (RequestBlockId.Number v) := by
  simp [deserializeRequestBlockId, deserialize_u32_0x, h]

/-! ### Rendering lemmas -/

theorem toDigitsBE_ne_nil (radix n : Nat) : toDigitsBE radix n ≠ [] := by
  unfold toDigitsBE
  split <;> simp

theorem toDigitsBE_chars (radix : Nat) (h2 : 2 ≤ radix) :
    ∀ n, ∀ c ∈ toDigitsBE radix n, ∃ d, d < radix ∧ c = Nat.digitChar d := by
  intro n
  induction n using Nat.strong_induction_on with
  | _ n ih =>
    unfold toDigitsBE
    split
    · next hlt =>
      intro c hc
      simp only [List.mem_singleton] at hc
      exact ⟨n, by omega, hc⟩
    · next hge =>
      intro c hc
      rw [List.mem_append] at hc
      rcases hc with hc | hc
      · exact ih (n / radix) (Nat.div_lt_self (by omega) (by omega)) c hc
      · simp only [List.mem_singleton] at hc
        exact ⟨n % radix, Nat.mod_lt _ (by omega), hc⟩

theorem parseDigitsAcc_toDigitsBE (radix : Nat) (h2 : 2 ≤ radix)
    (hdig : ∀ d, d < radix → digitValue? radix (Nat.digitChar d) = some d) :
    ∀ n, parseDigitsAcc radix 0 (toDigitsBE radix n) = some n := by
  intro n
  induction n using Nat.strong_induction_on with
  | _ n ih =>
    unfold toDigitsBE
    split
    · next hlt =>
      have hn : n < radix := by omega
      simp [parseDigitsAcc, hdig n hn]
    · next hge =>
      rw [parseDigitsAcc_append]
      rw [ih (n / radix) (Nat.div_lt_self (by omega) (by omega))]
      rw [Option.some_bind]
      have hm : n % radix < radix := Nat.mod_lt _ (by omega)
      simp only [parseDigitsAcc, hdig (n % radix) hm]
      rw [Nat.mul_comm, Nat.div_add_mod]

theorem dropPlus_toDigitsBE (radix : Nat) (h2 : 2 ≤ radix)
    (hplus : ∀ d, d < radix → Nat.digitChar d ≠ '+') (n : Nat) :
    dropPlus (toDigitsBE radix n) = toDigitsBE radix n := by
  cases h : toDigitsBE radix n with
  | nil => exact absurd h (toDigitsBE_ne_nil radix n)
  | cons c rest =>
    have hc : c ∈ toDigitsBE radix n := by rw [h]; simp
    obtain ⟨d, hd, rfl⟩ := toDigitsBE_chars radix h2 n c hc
    exact dropPlus_cons_ne _ _ (hplus d hd)

theorem u32FromStrRadix_toDigitsBE (radix : Nat) (h2 : 2 ≤ radix)
    (hdig : ∀ d, d < radix → digitValue? radix (Nat.digitChar d) = some d)
    (hplus : ∀ d, d < radix → Nat.digitChar d ≠ '+')
    (n : Nat) (hn : n < 2 ^ 32) :
    u32FromStrRadix radix (toDigitsBE radix n) = some n := by
  unfold u32FromStrRadix fromStrRadixNat
  rw [if_neg (toDigitsBE_ne_nil radix n)]
  simp only [dropPlus_toDigitsBE radix h2 hplus n]
  rw [if_neg (toDigitsBE_ne_nil radix n)]
  rw [parseDigitsAcc_toDigitsBE radix h2 hdig n]
  rw [Option.some_bind, if_pos hn]

/-! ### Hex decoding lemmas -/

theorem decodeHexBytes_total :
    ∀ (k : Nat) (cs : List Char), cs.length ≤ k → cs.length % 2 = 0 →
      (∀ c ∈ cs, (digitValue? 16 c).isSome = true) →
      ∃ bs, decodeHexBytes cs = some bs := by
  intro k
  induction k with
  | zero =>
    intro cs hlen _ _
    have : cs = [] := List.eq_nil_of_length_eq_zero (by omega)
    subst this
    exact ⟨[], rfl⟩
  | succ k ih =>
    intro cs hlen heven hhex
    rcases cs with _ | ⟨c1, _ | ⟨c2, rest⟩⟩
    · exact ⟨[], rfl⟩
    · simp at heven
    · obtain ⟨bs, hbs⟩ := ih rest (by simp at hlen ⊢; omega)
        (by simp at heven ⊢; omega)
        (fun c hc => hhex c (by simp [hc]))
      have h1 := hhex c1 (by simp)
      have h2 := hhex c2 (by simp)
      obtain ⟨d1, hd1⟩ := Option.isSome_iff_exists.mp h1
      obtain ⟨d2, hd2⟩ := Option.isSome_iff_exists.mp h2
      exact ⟨(d1 * 16 + d2) :: bs, by simp [decodeHexBytes, hd1, hd2, hbs]⟩

/-! ### Concrete inputs used by witnesses and counterexamples -/

def capEarliest : String := "Earliest"
def capLatest : String := "Latest"
def capPending : String := "PENDING"
def hexPlusF : String := "0x+f"
def ff64 : List Char := List.replicate 64 'f'
def pad60abcd : List Char := List.replicate 60 '0' ++ ['a', 'b', 'c', 'd']

/-! ### Claim theorems -/

/-- C2 counterexample: `"0x+f"` is neither a `0x`-prefixed hexadecimal
numeral nor a plain base-10 numeral, yet the 32-bit parser accepts it (with
value 15), because `u32::from_str_radix` tolerates a leading `'+'` sign. -/
theorem parseU32_spec_counterexample :
    deserialize_u32_0x (Json.str hexPlusF) = Except.ok 15 ∧
      specAcceptsU32 hexPlusF = false :=
  ⟨rfl, rfl⟩

/-- C2 (amended): the 32-bit parser succeeds exactly on an
optional-`'+'`-signed hexadecimal numeral after a literal `0x` prefix, or an
optional-`'+'`-signed plain base-10 numeral otherwise, and only when the
denoted value fits in 32 bits; the returned value is the exact denoted
value, never a truncation. -/
theorem deserialize_u32_0x_characterization (s : String) (v : Nat) :
    deserialize_u32_0x (Json.str s) = Except.ok v ↔
      (((∃ rest, s.data = '0' :: 'x' :: rest ∧ SignedNumeral 16 rest ∧
            v = natOfDigits 16 (dropPlus rest)) ∨
        (SignedNumeral 10 s.data ∧ v = natOfDigits 10 (dropPlus s.data))) ∧
        v < 2 ^ 32) := by
  rw [← parseU32Chars_characterization]
  unfold deserialize_u32_0x
  cases h : parseU32Chars s.data <;> simp [h]

/-- C4 counterexample: `"Latest"` does not resolve to `Tag(Latest)` — the
derived tag matching is case-sensitive and the whole untagged decode fails. -/
theorem tag_case_sensitive_counterexample :
    deserializeRequestBlockId (Json.str capLatest) = Except.error DecodeError.noVariantMatched ∧
      deserializeRequestBlockId (Json.str capLatest) ≠
        Except.ok (RequestBlockId.Tag RequestBlockTag.Latest) := by
  refine ⟨rfl, ?_⟩
  intro hab
  rw [show deserializeRequestBlockId (Json.str capLatest) =
        Except.error DecodeError.noVariantMatched from rfl] at hab
  exact Except.noConfusion hab

/-- C4 (amended): exactly the lowercase strings `"earliest"`, `"latest"`,
`"pending"` resolve to the corresponding tags; other case variants of these
words (e.g. `"Earliest"`, `"PENDING"`) fail with a decode error — the
comparison is case-sensitive, not case-insensitive. -/
theorem tags_resolve_lowercase :
    deserializeRequestBlockId (Json.str sEarliest) =
        Except.ok (RequestBlockId.Tag RequestBlockTag.Earliest) ∧
      deserializeRequestBlockId (Json.str sLatest) =
        Except.ok (RequestBlockId.Tag RequestBlockTag.Latest) ∧
      deserializeRequestBlockId (Json.str sPending) =
        Except.ok (RequestBlockId.Tag RequestBlockTag.Pending) ∧
      deserializeRequestBlockId (Json.str capEarliest) =
        Except.error DecodeError.noVariantMatched ∧
      deserializeRequestBlockId (Json.str capPending) =
        Except.error DecodeError.noVariantMatched :=
  ⟨rfl, rfl, rfl, rfl, rfl⟩

/-- C3: for every 32-bit value `n`, resolving the `0x`-prefixed lowercase
hex rendering of `n` and resolving its decimal rendering both succeed with
`Number n`; in particular the hex wire form of `Number(12345)` round-trips. -/
theorem resolve_renderings (n : Nat) (h : n < 2 ^ 32) :
    deserializeRequestBlockId (Json.str (String.mk ('0' :: 'x' :: toDigitsBE 16 n))) =
      Except.ok (RequestBlockId.Number n) ∧
    deserializeRequestBlockId (Json.str (String.mk (toDigitsBE 10 n))) =
      Except.ok (RequestBlockId.Number n) := by
  have hdig16 : ∀ d, d < 16 → digitValue? 16 (Nat.digitChar d) = some d := by decide
  have hplus16 : ∀ d, d < 16 → Nat.digitChar d ≠ '+' := by decide
  have hdig10 : ∀ d, d < 10 → digitValue? 10 (Nat.digitChar d) = some d := by decide
  have hplus10 : ∀ d, d < 10 → Nat.digitChar d ≠ '+' := by decide
  have hxd : ∀ d, d < 10 → Nat.digitChar d ≠ 'x' := by decide
  constructor
  · apply resolve_of_parse_some
    show parseU32Chars ('0' :: 'x' :: toDigitsBE 16 n) = some n
    have hr : parseU32Chars ('0' :: 'x' :: toDigitsBE 16 n) =
        u32FromStrRadix 16 (toDigitsBE 16 n) := rfl
    rw [hr]
    exact u32FromStrRadix_toDigitsBE 16 (by omega) hdig16 hplus16 n h
  · apply resolve_of_parse_some
    show parseU32Chars (toDigitsBE 10 n) = some n
    have hform : parseU32Chars (toDigitsBE 10 n) =
        u32FromStrRadix 10 (toDigitsBE 10 n) := by
      unfold parseU32Chars
      split
      · next rest heq =>
        exfalso
        have hx : 'x' ∈ toDigitsBE 10 n := by rw [heq]; simp
        obtain ⟨d, hd, hdx⟩ := toDigitsBE_chars 10 (by omega) n 'x' hx
        exact hxd d hd hdx.symm
      · rfl
    rw [hform]
    exact u32FromStrRadix_toDigitsBE 10 (by omega) hdig10 hplus10 n h

/-- Witness for C3 at `n = 12345` (hex wire form `"0x3039"`). -/
theorem resolve_renderings_witness :
    deserializeRequestBlockId (Json.str (String.mk ('0' :: 'x' :: toDigitsBE 16 12345))) =
      Except.ok (RequestBlockId.Number 12345) ∧
    deserializeRequestBlockId (Json.str (String.mk (toDigitsBE 10 12345))) =
      Except.ok (RequestBlockId.Number 12345) :=
  resolve_renderings 12345 (by norm_num)

/-- C5: for every string whose form, after stripping the optional `0x`
prefix, is exactly 64 hexadecimal characters, and which does not parse as a
valid 32-bit number, resolution succeeds and yields `Hash` of the denoted
256-bit digest.  (A bare 64-hex string never begins with the `0x` prefix,
since `'x'` is not a hex character, so `strip0x` captures exactly the
"optionally `0x`-prefixed" wire forms of a digest.) -/
theorem resolve_hex64_hash (s : String) (core : List Char)
    (hcore : strip0x s.data = core) (hlen : core.length = 64)
    (hhex : ∀ c ∈ core, (digitValue? 16 c).isSome = true)
    (hnum : parseU32Chars s.data = none) :
    ∃ bytes, decodeHexBytes core = some bytes ∧
      deserializeRequestBlockId (Json.str s) = Except.ok (RequestBlockId.Hash bytes) := by
  obtain ⟨bs, hbs⟩ := decodeHexBytes_total core.length core le_rfl (by omega) hhex
  refine ⟨bs, hbs, ?_⟩
  have hh : deserializeH256 (Json.str s) = Except.ok bs := by
    simp [deserializeH256, deserializeFixedHash, hcore, hlen, hbs]
  simp [deserializeRequestBlockId, deserialize_u32_0x, hnum, hh]

/-- Witness for C5 at the digest of 64 `'f'`s (value `2 ^ 256 - 1`, far
outside the 32-bit range), in both its bare and its `0x`-prefixed wire
forms. -/
theorem resolve_hex64_hash_witness :
    (∃ bytes, decodeHexBytes ff64 = some bytes ∧
      deserializeRequestBlockId (Json.str (String.mk ff64)) =
        Except.ok (RequestBlockId.Hash bytes)) ∧
    (∃ bytes, decodeHexBytes ff64 = some bytes ∧
      deserializeRequestBlockId (Json.str (String.mk ('0' :: 'x' :: ff64))) =
        Except.ok (RequestBlockId.Hash bytes)) :=
  ⟨resolve_hex64_hash (String.mk ff64) ff64 rfl (by decide) (by decide) (by decide),
    resolve_hex64_hash (String.mk ('0' :: 'x' :: ff64)) ff64 rfl (by decide)
      (by decide) (by decide)⟩

/-- C9: a `0x`-prefixed string of 64 hex characters whose value fits in 32
bits resolves to `Number` of that value, not to `Hash` — the number shape
shadows full-length digests with small values. -/
theorem hex64_small_value_shadows_hash (rest : List Char) (v : Nat)
    (hlen : rest.length = 64)
    (hhex : ∀ c ∈ rest, (digitValue? 16 c).isSome = true)
    (hval : natOfDigits 16 rest = v) (hsmall : v < 2 ^ 32) :
    deserializeRequestBlockId (Json.str (String.mk ('0' :: 'x' :: rest))) =
      Except.ok (RequestBlockId.Number v) := by
  apply resolve_of_parse_some
  show parseU32Chars ('0' :: 'x' :: rest) = some v
  have hr : parseU32Chars ('0' :: 'x' :: rest) = u32FromStrRadix 16 rest := rfl
  rw [hr, u32FromStrRadix_eq_some]
  have hne : rest ≠ [] := by
    intro hc
    rw [hc] at hlen
    simp at hlen
  have hdp : dropPlus rest = rest := by
    cases rest with
    | nil => exact absurd rfl hne
    | cons c r =>
      have hcd := hhex c (by simp)
      have hcplus : c ≠ '+' := by
        intro hc
        rw [hc] at hcd
        simp [digitValue?] at hcd
      exact dropPlus_cons_ne c r hcplus
  rw [hdp]
  exact ⟨hne, hhex, hval.symm, hsmall⟩

/-- Witness for C9 at the 64-character digest `0x00...0abcd`
(60 zeros followed by `abcd`), which resolves to `Number 43981`. -/
theorem hex64_small_value_shadows_hash_witness :
    deserializeRequestBlockId (Json.str (String.mk ('0' :: 'x' :: pad60abcd))) =
      Except.ok (RequestBlockId.Number 43981) :=
  hex64_small_value_shadows_hash pad60abcd 43981 (by decide) (by decide)
    (by decide) (by decide)

/-- C8: `debug_getBadBlocks` returns an empty sequence for every input block
reference, never a non-empty result and never an error. -/
theorem bad_blocks_always_empty (b : BlockNumberOrHash) :
    bad_blocks b = Except.ok [] := rfl

/-- C10 counterexample: not every non-string JSON value fails to match the
three shapes — serde's derived enum deserializer accepts the externally
tagged single-entry map form, so the JSON object `{"latest": null}` matches
the tag shape and resolves to `Tag(Latest)` although it is not a string. -/
theorem tag_map_form_counterexample :
    deserializeRequestBlockId (Json.obj [(sLatest, Json.null)]) =
        Except.ok (RequestBlockId.Tag RequestBlockTag.Latest) ∧
      (∀ s, Json.obj [(sLatest, Json.null)] ≠ Json.str s) :=
  ⟨rfl, fun _ hs => Json.noConfusion hs⟩

/-- C10 (amended): a block reference supplied as a bare JSON numeric literal
is rejected with a decode error, and so are booleans, `null` and arrays —
the number shape accepts only string input, and none of these values match
the hash or tag shapes either.  (JSON objects are the one non-string
exception: the tag shape also accepts serde's single-entry map form.) -/
theorem scalar_nonstring_block_reference_rejected :
    (∀ n : Int, deserializeRequestBlockId (Json.num n) =
        Except.error DecodeError.noVariantMatched) ∧
      (∀ b : Bool, deserializeRequestBlockId (Json.bool b) =
        Except.error DecodeError.noVariantMatched) ∧
      deserializeRequestBlockId Json.null =
        Except.error DecodeError.noVariantMatched ∧
      (∀ elems : List Json, deserializeRequestBlockId (Json.arr elems) =
        Except.error DecodeError.noVariantMatched) :=
  ⟨fun _ => rfl, fun _ => rfl, rfl, fun _ => rfl⟩

/-- An optional struct field whose parser succeeds on present input always
binds successfully. -/
theorem optionalField_isOk {α : Type} (fields : List (String × Json)) (name : String)
    (de : Json → Except DecodeError α)
    (h : ∀ j, lookupField fields name = some j → (de j).isOk = true) :
    ∃ o, optionalField fields name de = Except.ok o := by
  cases hl : lookupField fields name with
  | none =>
    refine ⟨none, ?_⟩
    unfold optionalField
    rw [hl]
  | some j =>
    have hj := h j hl
    cases hde : de j with
    | error e =>
      rw [hde] at hj
      simp [Except.isOk, Except.toBool] at hj
    | ok a =>
      refine ⟨some a, ?_⟩
      unfold optionalField
      rw [hl]
      show Except.map some (de j) = Except.ok (some a)
      rw [hde]
      rfl

def addr40 : List Char := List.replicate 40 '1'

/-- C6: deserializing a call envelope without `to` fails with a
missing-field error (provided every present field parses, so that the
decoder reaches the required-field check); an envelope with only `to`
succeeds with every one of the other ten fields absent, not defaulted. -/
theorem traceCallParams_to_mandatory (fields : List (String × Json)) (jv : Json)
    (a : List Nat) :
    ((∀ name j, lookupField fields name = some j → fieldParses name j = true) →
      lookupField fields nTo = none →
      deserializeTraceCallParams (Json.obj fields) =
        Except.error (DecodeError.missingField nTo)) ∧
    (deserializeH160 jv = Except.ok a →
      deserializeTraceCallParams (Json.obj [(nTo, jv)]) =
        Except.ok ⟨none, a, none, none, none, none, none, none, none, none, none⟩) := by
  constructor
  · intro hvals hto
    have hfrom : ∀ j, lookupField fields nFrom = some j → (deserializeH160 j).isOk = true := by
      intro j hj
      have := hvals nFrom j hj
      simpa [fieldParses, nFrom] using this
    have hgp : ∀ j, lookupField fields nGasPrice = some j → (deserializeU256 j).isOk = true := by
      intro j hj
      have := hvals nGasPrice j hj
      simpa [fieldParses, nFrom, nGasPrice] using this
    have hmf : ∀ j, lookupField fields nMaxFeePerGas = some j →
        (deserializeU256 j).isOk = true := by
      intro j hj
      have := hvals nMaxFeePerGas j hj
      simpa [fieldParses, nFrom, nGasPrice, nMaxFeePerGas] using this
    have hmp : ∀ j, lookupField fields nMaxPriorityFeePerGas = some j →
        (deserializeU256 j).isOk = true := by
      intro j hj
      have := hvals nMaxPriorityFeePerGas j hj
      simpa [fieldParses, nFrom, nGasPrice, nMaxFeePerGas, nMaxPriorityFeePerGas] using this
    have hgas : ∀ j, lookupField fields nGas = some j → (deserializeU256 j).isOk = true := by
      intro j hj
      have := hvals nGas j hj
      simpa [fieldParses, nFrom, nGasPrice, nMaxFeePerGas, nMaxPriorityFeePerGas, nGas]
        using this
    have hval : ∀ j, lookupField fields nValue = some j → (deserializeU256 j).isOk = true := by
      intro j hj
      have := hvals nValue j hj
      simpa [fieldParses, nFrom, nGasPrice, nMaxFeePerGas, nMaxPriorityFeePerGas, nGas,
        nValue] using this
    have hdata : ∀ j, lookupField fields nData = some j → (deserializeBytes j).isOk = true := by
      intro j hj
      have := hvals nData j hj
      simpa [fieldParses, nFrom, nGasPrice, nMaxFeePerGas, nMaxPriorityFeePerGas, nGas,
        nValue, nData] using this
    have hnonce : ∀ j, lookupField fields nNonce = some j → (deserializeU256 j).isOk = true := by
      intro j hj
      have := hvals nNonce j hj
      simpa [fieldParses, nFrom, nGasPrice, nMaxFeePerGas, nMaxPriorityFeePerGas, nGas,
        nValue, nData, nNonce] using this
    have hal : ∀ j, lookupField fields nAccessList = some j →
        ((deserializeVec deserializeAccessListItem) j).isOk = true := by
      intro j hj
      have := hvals nAccessList j hj
      simpa [fieldParses, nFrom, nGasPrice, nMaxFeePerGas, nMaxPriorityFeePerGas, nGas,
        nValue, nData, nNonce, nAccessList] using this
    have hty : ∀ j, lookupField fields nType = some j → (deserializeU256 j).isOk = true := by
      intro j hj
      have := hvals nType j hj
      simpa [fieldParses, nFrom, nGasPrice, nMaxFeePerGas, nMaxPriorityFeePerGas, nGas,
        nValue, nData, nNonce, nAccessList, nType] using this
    obtain ⟨oFrom, eFrom⟩ := optionalField_isOk fields nFrom deserializeH160 hfrom
    obtain ⟨oGp, eGp⟩ := optionalField_isOk fields nGasPrice deserializeU256 hgp
    obtain ⟨oMf, eMf⟩ := optionalField_isOk fields nMaxFeePerGas deserializeU256 hmf
    obtain ⟨oMp, eMp⟩ := optionalField_isOk fields nMaxPriorityFeePerGas deserializeU256 hmp
    obtain ⟨oGas, eGas⟩ := optionalField_isOk fields nGas deserializeU256 hgas
    obtain ⟨oVal, eVal⟩ := optionalField_isOk fields nValue deserializeU256 hval
    obtain ⟨oData, eData⟩ := optionalField_isOk fields nData deserializeBytes hdata
    obtain ⟨oNonce, eNonce⟩ := optionalField_isOk fields nNonce deserializeU256 hnonce
    obtain ⟨oAl, eAl⟩ :=
      optionalField_isOk fields nAccessList (deserializeVec deserializeAccessListItem) hal
    obtain ⟨oTy, eTy⟩ := optionalField_isOk fields nType deserializeU256 hty
    have eTo : optionalField fields nTo deserializeH160 = Except.ok none := by
      unfold optionalField
      rw [hto]
    simp [deserializeTraceCallParams, eFrom, eTo, eGp, eMf, eMp, eGas, eVal, eData,
      eNonce, eAl, eTy, Except.bind]
  · intro hjv
    have eTo : optionalField [(nTo, jv)] nTo deserializeH160 = Except.ok (some a) := by
      show Except.map some (deserializeH160 jv) = Except.ok (some a)
      rw [hjv]
      rfl
    have eFrom : optionalField [(nTo, jv)] nFrom deserializeH160 = Except.ok none := rfl
    have eGp : optionalField [(nTo, jv)] nGasPrice deserializeU256 = Except.ok none := rfl
    have eMf : optionalField [(nTo, jv)] nMaxFeePerGas deserializeU256 = Except.ok none := rfl
    have eMp : optionalField [(nTo, jv)] nMaxPriorityFeePerGas deserializeU256 =
      Except.ok none := rfl
    have eGas : optionalField [(nTo, jv)] nGas deserializeU256 = Except.ok none := rfl
    have eVal : optionalField [(nTo, jv)] nValue deserializeU256 = Except.ok none := rfl
    have eData : optionalField [(nTo, jv)] nData deserializeBytes = Except.ok none := rfl
    have eNonce : optionalField [(nTo, jv)] nNonce deserializeU256 = Except.ok none := rfl
    have eAl : optionalField [(nTo, jv)] nAccessList (deserializeVec deserializeAccessListItem) =
      Except.ok none := rfl
    have eTy : optionalField [(nTo, jv)] nType deserializeU256 = Except.ok none := rfl
    simp only [deserializeTraceCallParams, eFrom, eTo, eGp, eMf, eMp, eGas, eVal,
      eData, eNonce, eAl, eTy, Except.bind]

/-- Witness for C6: the empty envelope fails with the missing-`to` error,
and the envelope holding only a valid `to` address decodes with the other
ten fields absent. -/
theorem traceCallParams_to_mandatory_witness :
    deserializeTraceCallParams (Json.obj []) =
        Except.error (DecodeError.missingField nTo) ∧
      deserializeTraceCallParams (Json.obj [(nTo, Json.str (String.mk ('0' :: 'x' :: addr40)))]) =
        Except.ok ⟨none, List.replicate 20 17, none, none, none, none, none, none,
          none, none, none⟩ :=
  ⟨(traceCallParams_to_mandatory [] Json.null []).1
      (fun name j hj => absurd hj (by simp [lookupField]))
      rfl,
    (traceCallParams_to_mandatory [] (Json.str (String.mk ('0' :: 'x' :: addr40)))
        (List.replicate 20 17)).2 rfl⟩

/-- C7: normalizing trace options fills each absent boolean flag
(`disableStorage`, `disableMemory`, `disableStack`) to `false`, keeps a
present flag's value, and passes `tracer`, `tracerConfig` and `timeout`
through unchanged; wholly absent options normalize to all-flags-`false` with
the pass-through fields absent. -/
theorem normalizeTraceParams_spec (p : TraceParams) :
    ((p.disable_storage = none → (normalizeTraceParams (some p)).disable_storage = false) ∧
      (∀ b, p.disable_storage = some b →
        (normalizeTraceParams (some p)).disable_storage = b)) ∧
    ((p.disable_memory = none → (normalizeTraceParams (some p)).disable_memory = false) ∧
      (∀ b, p.disable_memory = some b →
        (normalizeTraceParams (some p)).disable_memory = b)) ∧
    ((p.disable_stack = none → (normalizeTraceParams (some p)).disable_stack = false) ∧
      (∀ b, p.disable_stack = some b →
        (normalizeTraceParams (some p)).disable_stack = b)) ∧
    (normalizeTraceParams (some p)).tracer = p.tracer ∧
    (normalizeTraceParams (some p)).tracer_config = p.tracer_config ∧
    (normalizeTraceParams (some p)).timeout = p.timeout ∧
    normalizeTraceParams none = ⟨false, false, false, none, none, none⟩ := by
  refine ⟨⟨?_, ?_⟩, ⟨?_, ?_⟩, ⟨?_, ?_⟩, rfl, rfl, rfl, rfl⟩
  · intro h
    simp [normalizeTraceParams, h]
  · intro b h
    simp [normalizeTraceParams, h]
  · intro h
    simp [normalizeTraceParams, h]
  · intro b h
    simp [normalizeTraceParams, h]
  · intro h
    simp [normalizeTraceParams, h]
  · intro b h
    simp [normalizeTraceParams, h]

/-- Witness for C7 at options with `disableStorage` absent and
`disableMemory` explicitly `true`. -/
theorem normalizeTraceParams_spec_witness :
    (normalizeTraceParams (some ⟨none, some true, none, none, none, none⟩)).disable_storage
        = false ∧
      (normalizeTraceParams (some ⟨none, some true, none, none, none, none⟩)).disable_memory
        = true :=
  ⟨(normalizeTraceParams_spec ⟨none, some true, none, none, none, none⟩).1.1 rfl,
    (normalizeTraceParams_spec ⟨none, some true, none, none, none, none⟩).2.1.2 true rfl⟩

end FrontierDebug
